import Mathlib

/-!
# Verification of the entries import/export/validation pipeline

Shallow embedding of the data-entry application's frontend utilities
(`validation.ts`, `date.ts`, `entriesXlsxImport.ts`, `entriesImportExport.ts`,
`entriesXlsxExport.ts`, `analytics.ts`) in Lean 4.  JavaScript strings are
modelled as `List Char`; JavaScript numbers arising from `parseFloat` are
modelled as an exact variant type (NaN / ±Infinity / rational); machine dates
are modelled by the proleptic Gregorian calendar with days counted from the
civil epoch 1970-01-01, local time being modelled with a fixed UTC offset
(so local midnights are exactly 86 400 000 ms apart).
-/

namespace DataEntry

/-! ## JavaScript string primitives -/

/-- The whitespace characters recognised by JavaScript's `String.prototype.trim`
and by `parseInt`/`parseFloat` leading-whitespace skipping (the common ones:
space, tab, LF, CR, VT, FF, NBSP, BOM). -/
def isJsWhitespace (c : Char) : Bool :=
  decide (c.toNat = 32 ∨ c.toNat = 9 ∨ c.toNat = 10 ∨ c.toNat = 13 ∨
          c.toNat = 11 ∨ c.toNat = 12 ∨ c.toNat = 160 ∨ c.toNat = 65279)

/-- `s.trim()`: drop leading and trailing whitespace. -/
def jsTrim (s : List Char) : List Char :=
  ((s.dropWhile isJsWhitespace).reverse.dropWhile isJsWhitespace).reverse

/-- ASCII digit test (JavaScript regex `\d`): code points 48..57. -/
def isAsciiDigit (c : Char) : Bool :=
  decide (48 ≤ c.toNat ∧ c.toNat ≤ 57)

/-- Numeric value of an ASCII digit character. -/
def digitVal (c : Char) : Nat := c.toNat - 48

/-- Strip one optional leading `+`/`-` sign, returning (isNegative, rest) —
the common prefix handling of `parseInt` and `parseFloat`. -/
def signSplit (t : List Char) : Bool × List Char :=
  match t with
  | [] => (false, [])
  | c :: r =>
    if c = '+' then (false, r)
    else if c = '-' then (true, r)
    else (false, c :: r)

/-! ## Validators (`validation.ts`) -/

structure ValidationResult where
  isValid : Bool
  error : Option (List Char)
deriving Repr, DecidableEq

/-- `validateRequired(value, fieldName)` from `validation.ts`. -/
def validateRequired (value : List Char) (fieldName : List Char) : ValidationResult :=
  if value = [] ∨ jsTrim value = [] then
    ⟨false, some (fieldName ++ " is required".data)⟩
  else ⟨true, none⟩

/-- `validateMobileNumber(value)` from `validation.ts`. -/
def validateMobileNumber (value : List Char) : ValidationResult :=
  if value = [] ∨ jsTrim value = [] then
    ⟨false, some "Mobile Number is required".data⟩
  else if ¬ (value ≠ [] ∧ value.all isAsciiDigit) then
    ⟨false, some "Mobile Number must contain only digits".data⟩
  else if value.length < 10 ∨ value.length > 15 then
    ⟨false, some "Mobile Number must be between 10 and 15 digits".data⟩
  else ⟨true, none⟩

/-! ## JavaScript numeric parsing (`parseFloat`) -/

/-- Result of a JavaScript `parseFloat`: NaN, a signed infinity, or the exact
value `±mantissa · 10^exp10` of the decimal literal that was read (the
double-rounding of the written literal is idealised away: the model keeps the
literal's exact value). -/
inductive JSNumber where
  | nan : JSNumber
  | inf (neg : Bool) : JSNumber
  | dec (neg : Bool) (mantissa : Nat) (exp10 : Int) : JSNumber
deriving Repr, DecidableEq

/-- `isNaN(n)`. -/
def JSNumber.isNaN : JSNumber → Bool
  | .nan => true
  | _ => false

/-- The JavaScript comparison `n <= 0` (false on NaN); `±m·10^e ≤ 0` iff the
sign is negative or the mantissa is zero. -/
def JSNumber.le0 : JSNumber → Bool
  | .nan => false
  | .inf neg => neg
  | .dec neg mantissa _ => neg || mantissa == 0

/-- Numeric value of a digit run, most significant first. -/
def digitsToNat (ds : List Char) : Nat :=
  ds.foldl (fun a c => a * 10 + digitVal c) 0

/-- Split a leading ASCII-digit run off a character list. -/
def takeDigits (s : List Char) : List Char × List Char :=
  (s.takeWhile isAsciiDigit, s.dropWhile isAsciiDigit)

/-- Parse the optional exponent part `e[±]digits` of a decimal literal;
if the `e` is not followed by at least one digit it contributes nothing
(JavaScript keeps the longest valid literal prefix). -/
def parseExponent (s : List Char) : Int :=
  match s with
  | 'e' :: rest | 'E' :: rest =>
    match rest with
    | '+' :: r2 => (if (takeDigits r2).1 = [] then 0 else (digitsToNat (takeDigits r2).1 : Int))
    | '-' :: r2 => (if (takeDigits r2).1 = [] then 0 else -(digitsToNat (takeDigits r2).1 : Int))
    | r2 => (if (takeDigits r2).1 = [] then 0 else (digitsToNat (takeDigits r2).1 : Int))
  | _ => 0

/-- Value of an unsigned decimal literal `digits[.digits][e[±]digits]` at the
head of `s`, as `(mantissa, exp10)` with value `mantissa · 10^exp10`;
`none` when no digit is present in the integer or fraction part. -/
def parseDecimalLiteral (s : List Char) : Option (Nat × Int) :=
  let ip := takeDigits s
  let fp :=
    match ip.2 with
    | '.' :: r => takeDigits r
    | _ => ([], ip.2)
  let rest := match ip.2 with
    | '.' :: _ => fp.2
    | _ => ip.2
  if ip.1 = [] ∧ fp.1 = [] then none
  else
    some (digitsToNat (ip.1 ++ fp.1), parseExponent rest - fp.1.length)

/-- JavaScript `parseFloat(value)`: skip leading whitespace, read an optional
sign, then either the literal `Infinity` or a decimal literal; NaN when no
valid prefix exists. -/
def jsParseFloat (s : List Char) : JSNumber :=
  let t := s.dropWhile isJsWhitespace
  let sb := signSplit t
  if "Infinity".data.isPrefixOf sb.2 then .inf sb.1
  else
    match parseDecimalLiteral sb.2 with
    | none => .nan
    | some me => .dec sb.1 me.1 me.2

/-- `validateAmount(value)` from `validation.ts`. -/
def validateAmount (value : List Char) : ValidationResult :=
  if value = [] ∨ jsTrim value = [] then
    ⟨false, some "Amount is required".data⟩
  else if (jsParseFloat value).isNaN then
    ⟨false, some "Amount must be a valid number".data⟩
  else if (jsParseFloat value).le0 then
    ⟨false, some "Amount must be greater than 0".data⟩
  else ⟨true, none⟩

/-! ## CSV line parsing and escaping
(`parseCSVLine` in `entriesXlsxImport.ts`, `escapeCSVField` in
`entriesImportExport.ts`) -/

mutual

/-- The character-by-character loop of `parseCSVLine`, split into its two
`inQuotes` states: `cur` is the field being accumulated.  Outside quotes, a
`"` enters quote mode, a `,` ends the field (pushed trimmed), anything else
is accumulated; at end of input the final field is pushed trimmed. -/
def parseCSVOut (cur : List Char) : List Char → List (List Char)
  | [] => [jsTrim cur]
  | '"' :: rest => parseCSVIn cur rest
  | ',' :: rest => jsTrim cur :: parseCSVOut [] rest
  | c :: rest => parseCSVOut (cur ++ [c]) rest

/-- The `inQuotes = true` state of the `parseCSVLine` loop: a doubled `"`
emits one literal quote and skips both characters; a single `"` leaves quote
mode; anything else (commas included) is accumulated. -/
def parseCSVIn (cur : List Char) : List Char → List (List Char)
  | [] => [jsTrim cur]
  | '"' :: '"' :: rest2 => parseCSVIn (cur ++ ['"']) rest2
  | '"' :: rest => parseCSVOut cur rest
  | c :: rest => parseCSVIn (cur ++ [c]) rest

end

/-- `parseCSVLine(line)` from `entriesXlsxImport.ts`. -/
def parseCSVLine (line : List Char) : List (List Char) :=
  parseCSVOut [] line

/-- `escapeCSVField(field)` from `entriesImportExport.ts` (string case): wrap
in quotes, doubling embedded quotes, iff the field contains a comma, a quote
or a newline. -/
def escapeCSVField (field : List Char) : List Char :=
  if field.contains ',' || field.contains '"' || field.contains '\n' then
    '"' :: ((field.map fun c => if c = '"' then juxQuote else [c]).flatten ++ ['"'])
  else field
where
  /-- the replacement `""` for an embedded quote -/
  juxQuote : List Char := ['"', '"']

/-- `text.split(/\r?\n/)`: break at each `\n`, consuming a `\r` directly
before it; a lone `\r` is ordinary text. -/
def splitLinesCRLF : List Char → List (List Char)
  | [] => [[]]
  | '\r' :: '\n' :: rest => [] :: splitLinesCRLF rest
  | '\n' :: rest => [] :: splitLinesCRLF rest
  | c :: rest =>
    match splitLinesCRLF rest with
    | [] => [[c]]
    | t :: ts => (c :: t) :: ts

/-- `s.split('-')` (single-character separator, no limit). -/
def jsSplit (sep : Char) : List Char → List (List Char)
  | [] => [[]]
  | c :: rest =>
    if c = sep then [] :: jsSplit sep rest
    else
      match jsSplit sep rest with
      | [] => [[c]]
      | t :: ts => (c :: t) :: ts

/-! ## Calendar model (JavaScript `Date` at local midnight)

A `Date` produced by `new Date(y, m, d)` in this code base always sits at
local midnight, so it is modelled by its day number counted from the civil
epoch 1970-01-01 (negative before).  Local time is modelled with a fixed UTC
offset, so consecutive local midnights are exactly 86 400 000 ms apart.
Conversions between day numbers and proleptic-Gregorian civil triples follow
the ECMAScript `MakeDay` arithmetic (month overflow carried into the year,
day overflow carried into the month). -/

/-- Proleptic Gregorian leap-year rule. -/
def isLeapYear (y : Int) : Bool :=
  decide ((y % 4 = 0 ∧ y % 100 ≠ 0) ∨ y % 400 = 0)

/-- Number of days in month `m` (1-indexed, 1..12) of year `y`. -/
def daysInMonth (y m : Int) : Int :=
  if m = 2 then (if isLeapYear y then 29 else 28)
  else if m = 4 ∨ m = 6 ∨ m = 9 ∨ m = 11 then 30 else 31

/-- Day of the March-based year for shifted month `mp` (0 = March .. 11 =
February) and day-of-month `d`, linear in `d` so that out-of-range days carry
over into adjacent months. -/
def doyFromMpDay (mp d : Int) : Int :=
  (153 * mp + 2) / 5 + d - 1

/-- Day of the 400-year era for year-of-era `yoe` (0..399) and day-of-year
`doy`. -/
def doeFromYoeDoy (yoe doy : Int) : Int :=
  yoe * 365 + yoe / 4 - yoe / 100 + doy

/-- Day number of the civil date `(y, m, d)` (month 1-indexed). -/
def daysFromCivil (y m d : Int) : Int :=
  let yAdj := y - (if m ≤ 2 then 1 else 0)
  let era := yAdj / 400
  let yoe := yAdj - era * 400
  let mp := if m > 2 then m - 3 else m + 9
  era * 146097 + doeFromYoeDoy yoe (doyFromMpDay mp d) - 719468

/-- Year of era (0..399) recovered from a day of era (0..146096). -/
def yoeFromDoe (doe : Int) : Int :=
  (doe - doe / 1460 + doe / 36524 - doe / 146096) / 365

/-- Shifted month (0..11) recovered from a day of the March-based year. -/
def mpFromDoy (doy : Int) : Int :=
  (5 * doy + 2) / 153

/-- Civil date of a day split as `era * 146097 + doe` with
`0 ≤ doe < 146097`. -/
def civilFromEraDoe (era doe : Int) : Int × Int × Int :=
  let yoe := yoeFromDoe doe
  let doy := doe - (365 * yoe + yoe / 4 - yoe / 100)
  let mp := mpFromDoy doy
  let d := doy - (153 * mp + 2) / 5 + 1
  let m := if mp < 10 then mp + 3 else mp - 9
  (yoe + era * 400 + (if m ≤ 2 then 1 else 0), m, d)

/-- Civil date `(y, m, d)` (month 1-indexed) of a day number. -/
def civilFromDays (z : Int) : Int × Int × Int :=
  civilFromEraDoe ((z + 719468) / 146097)
    (z + 719468 - (z + 719468) / 146097 * 146097)

/-- `new Date(y, m, d)` (month 0-indexed, any integers), as the day number of
the resulting local-midnight instant: ECMAScript remaps years 0..99 to
1900..1999, carries month overflow into the year, and day overflow into the
month. -/
def jsMakeDay (y m d : Int) : Int :=
  let yy := if 0 ≤ y ∧ y ≤ 99 then y + 1900 else y
  let ym := yy + m / 12
  let mn := m % 12
  daysFromCivil ym (mn + 1) 1 + (d - 1)

/-- `date.getFullYear()` of a local-midnight day number. -/
def getFullYear (t : Int) : Int := (civilFromDays t).1

/-- `date.getMonth()` (0-indexed) of a local-midnight day number. -/
def getMonth (t : Int) : Int := (civilFromDays t).2.1 - 1

/-- `date.getDate()` (day of month) of a local-midnight day number. -/
def getDate (t : Int) : Int := (civilFromDays t).2.2

/-! ## Date parsing (`parseManualDate`, `calculateDaysSince` in `date.ts`) -/

/-- JavaScript `parseInt(s, 10)`: skip leading whitespace, read an optional
sign and then the longest run of ASCII digits; NaN (`none`) when that run is
empty. -/
def jsParseInt (s : List Char) : Option Int :=
  let t := s.dropWhile isJsWhitespace
  let sb := signSplit t
  let ds := sb.2.takeWhile isAsciiDigit
  if ds = [] then none
  else some (if sb.1 then -(digitsToNat ds : Int) else (digitsToNat ds : Int))

/-- `parseManualDate(dateString)` from `date.ts`: split on `-`, require
exactly 3 parts, `parseInt` each, build `new Date(year, month-1, day)` and
return it only if its year/month/day components reproduce the parsed numbers;
`null` (`none`) otherwise.  The result is the date's local-midnight day
number. -/
def parseManualDate (s : List Char) : Option Int :=
  match jsSplit '-' s with
  | [p0, p1, p2] =>
    match jsParseInt p0, jsParseInt p1, jsParseInt p2 with
    | some year, some monthRaw, some day =>
      let month := monthRaw - 1
      let t := jsMakeDay year month day
      if getFullYear t = year ∧ getMonth t = month ∧ getDate t = day then
        some t
      else none
    | _, _, _ => none
  | _ => none

/-- `calculateDaysSince(manualDateString)` from `date.ts`, with the reference
instant "today at local midnight" passed as the day number `todayDay`:
`Math.floor((today.getTime() - manualDate.getTime()) / 86_400_000)`. -/
def calculateDaysSince (todayDay : Int) (s : List Char) : Option Int :=
  match parseManualDate s with
  | none => none
  | some t => some ((todayDay * 86400000 - t * 86400000) / 86400000)

/-! ## Decimal rendering (used to quantify over formatted `YYYY-MM-DD`
strings) -/

/-- The ASCII character of a decimal digit. -/
def digitChar (n : Nat) : Char :=
  if n = 0 then '0' else if n = 1 then '1' else if n = 2 then '2'
  else if n = 3 then '3' else if n = 4 then '4' else if n = 5 then '5'
  else if n = 6 then '6' else if n = 7 then '7' else if n = 8 then '8'
  else '9'

/-- Decimal digits of `n`, most significant first; `fuel` bounds the
recursion depth (any `fuel > n` is enough). -/
def natToDigitsAux : Nat → Nat → List Char
  | 0, _ => []
  | fuel + 1, n =>
    if n < 10 then [digitChar n]
    else natToDigitsAux fuel (n / 10) ++ [digitChar (n % 10)]

/-- Decimal digits of `n`, most significant first. -/
def natToDigits (n : Nat) : List Char :=
  natToDigitsAux (n + 1) n

/-- Decimal digits of `n`, left-padded with `'0'` to width `w`. -/
def padNat (w n : Nat) : List Char :=
  List.replicate (w - (natToDigits n).length) '0' ++ natToDigits n

/-- The canonical `YYYY-MM-DD` rendering of a civil date (year zero-padded to
4 digits, month and day to 2). -/
def fmtYMD (y m d : Int) : List Char :=
  padNat 4 y.toNat ++ '-' :: (padNat 2 m.toNat ++ '-' :: padNat 2 d.toNat)

/-! ## Importer (`entriesXlsxImport.ts`) -/

/-- `ParsedRow` from `entriesXlsxImport.ts`: the four raw string fields of
one imported row. -/
structure ParsedRow where
  manualDate : List Char
  customerName : List Char
  mobileNumber : List Char
  amountRs : List Char
deriving Repr, DecidableEq

/-- One entry of `ImportResult.errors`. -/
structure ImportError where
  row : Nat
  message : List Char
deriving Repr, DecidableEq

/-- `ImportResult` from `entriesXlsxImport.ts`. -/
structure ImportResult where
  validRows : List ParsedRow
  errors : List ImportError
deriving Repr, DecidableEq

/-- The four target fields a header column can map to. -/
inductive Field where
  | manualDate
  | customerName
  | mobileNumber
  | amountRs
deriving Repr, DecidableEq

/-- The `COLUMN_MAPPINGS` dictionary (keys already lower-case). -/
def COLUMN_MAPPINGS (s : List Char) : Option Field :=
  if s = "manual date".data ∨ s = "manualdate".data ∨ s = "date".data then
    some .manualDate
  else if s = "customer name".data ∨ s = "customername".data ∨
      s = "name".data then
    some .customerName
  else if s = "mobile number".data ∨ s = "mobilenumber".data ∨
      s = "mobile".data ∨ s = "phone".data then
    some .mobileNumber
  else if s = "amount (rs.)".data ∨ s = "amount".data ∨
      s = "amountrs".data ∨ s = "amount rs".data then
    some .amountRs
  else none

/-- `normalizeColumnName(header)`: lower-case, trim, look up. -/
def normalizeColumnName (header : List Char) : Option Field :=
  COLUMN_MAPPINGS (jsTrim (header.map Char.toLower))

/-- The partially assembled row of the importer's inner loop. -/
structure PartialRow where
  manualDate : Option (List Char)
  customerName : Option (List Char)
  mobileNumber : Option (List Char)
  amountRs : Option (List Char)
deriving Repr, DecidableEq

/-- `parsedRow[fieldName] = v` for one field. -/
def setField (r : PartialRow) (f : Field) (v : List Char) : PartialRow :=
  match f with
  | .manualDate => { r with manualDate := some v }
  | .customerName => { r with customerName := some v }
  | .mobileNumber => { r with mobileNumber := some v }
  | .amountRs => { r with amountRs := some v }

/-- The importer's positional assignment loop: walk the header mapping and
the row's values in lockstep (up to the shorter of the two), assigning each
trimmed value to its mapped field (later columns overwrite earlier ones
mapped to the same field) and recording whether any field was assigned. -/
def assignLoop : List (Option Field) → List (List Char) → PartialRow → Bool →
    PartialRow × Bool
  | some f :: fm, v :: vs, acc, _ =>
    assignLoop fm vs (setField acc f (jsTrim v)) true
  | none :: fm, _ :: vs, acc, has => assignLoop fm vs acc has
  | _, _, acc, has => (acc, has)

/-- `validateRow(row, rowIndex)`: date required → name required → mobile
format → amount format, first failure wins; messages are prefixed with
`Row <n>: `. -/
def validateRow (row : ParsedRow) (rowIndex : Nat) : Option (List Char) :=
  let prefixRow := "Row ".data ++ natToDigits rowIndex ++ ": ".data
  match (validateRequired row.manualDate "Manual Date".data).error with
  | some e => some (prefixRow ++ e)
  | none =>
    match (validateRequired row.customerName "Customer Name".data).error with
    | some e => some (prefixRow ++ e)
    | none =>
      match (validateMobileNumber row.mobileNumber).error with
      | some e => some (prefixRow ++ e)
      | none =>
        match (validateAmount row.amountRs).error with
        | some e => some (prefixRow ++ e)
        | none => none

/-- Process one data line with row number `rowNumber`: skip blank lines and
lines with no mapped field; otherwise build the complete row (missing fields
default to the empty string) and validate it. -/
def processLine (fieldMapping : List (Option Field)) (rowNumber : Nat)
    (line : List Char) : Option (ParsedRow ⊕ ImportError) :=
  let l := jsTrim line
  if l = [] then none
  else
    let values := parseCSVLine l
    let pa := assignLoop fieldMapping values ⟨none, none, none, none⟩ false
    if pa.2 = false then none
    else
      let completeRow : ParsedRow :=
        ⟨pa.1.manualDate.getD [], pa.1.customerName.getD [],
         pa.1.mobileNumber.getD [], pa.1.amountRs.getD []⟩
      match validateRow completeRow rowNumber with
      | some msg => some (.inr ⟨rowNumber, msg⟩)
      | none => some (.inl completeRow)

/-- The importer's data-row loop: `i` is the loop index over the non-blank
line list (the header is index 0), so the row number reported for line `i`
is `i + 1`. -/
def importRows (fieldMapping : List (Option Field)) :
    Nat → List (List Char) → List ParsedRow × List ImportError
  | _, [] => ([], [])
  | i, l :: ls =>
    let rest := importRows fieldMapping (i + 1) ls
    match processLine fieldMapping (i + 1) l with
    | none => rest
    | some (.inl r) => (r :: rest.1, rest.2)
    | some (.inr e) => (rest.1, e :: rest.2)

deriving instance DecidableEq for Except

/-- The file's lines after dropping blank (whitespace-only) lines, as the
importer does before any numbering. -/
def nonblankLines (text : List Char) : List (List Char) :=
  (splitLinesCRLF text).filter (fun l => !(jsTrim l).isEmpty)

/-- `parseXLSXFile(file)` from `entriesXlsxImport.ts`, on the file's text
content; `Except.error` models the promise rejection. -/
def parseXLSXFile (text : List Char) : Except (List Char) ImportResult :=
  if text = [] then .error "Failed to read file".data
  else
    match nonblankLines text with
    | [] => .error "File is empty".data
    | headerLine :: dataLines =>
      let fieldMapping := (parseCSVLine headerLine).map normalizeColumnName
      if ¬ (fieldMapping.any (fun f => f.isSome)) then
        .error "No recognized columns found in the file".data
      else
        let res := importRows fieldMapping 1 dataLines
        if res.1 = [] ∧ res.2 = [] then
          .error "No data rows found in the file".data
        else .ok ⟨res.1, res.2⟩

/-! ## Aggregator (`analytics.ts`) -/

/-- The domain `Entry` (fields used by the frontend utilities; `amountRs` is
the backend's bigint, modelled as `Int`, and `createdAt` its nanosecond
timestamp). -/
structure Entry where
  manualDate : List Char
  customerName : List Char
  mobileNumber : List Char
  amountRs : Int
  createdAt : Int
deriving Repr, DecidableEq

/-- One bucket of `aggregateByMonth`. -/
structure MonthlyData where
  month : List Char
  monthIndex : Int
  totalAmount : Int
  count : Int
deriving Repr, DecidableEq

/-- The `monthNames` array of `aggregateByMonth`. -/
def monthNames : List (List Char) :=
  ["Jan".data, "Feb".data, "Mar".data, "Apr".data, "May".data, "Jun".data,
   "Jul".data, "Aug".data, "Sep".data, "Oct".data, "Nov".data, "Dec".data]

/-- Does an entry's date parse and land in month `m` (0-indexed) of `year`? -/
def entryInMonth (year : Int) (m : Int) (e : Entry) : Bool :=
  match parseManualDate e.manualDate with
  | none => false
  | some t => decide (getFullYear t = year ∧ getMonth t = m)

/-- The (totalAmount, count) pair accumulated into month `m`'s bucket by the
`entries.forEach` loop of `aggregateByMonth`. -/
def monthTotals (entries : List Entry) (year : Int) (m : Int) : Int × Int :=
  entries.foldl
    (fun acc e =>
      if entryInMonth year m e then (acc.1 + e.amountRs, acc.2 + 1) else acc)
    (0, 0)

/-- `aggregateByMonth(entries, year)` from `analytics.ts`: twelve buckets in
Jan..Dec order (the `Map` is pre-seeded with months 0..11 in order, so
`Array.from` returns them in that order). -/
def aggregateByMonth (entries : List Entry) (year : Int) : List MonthlyData :=
  (List.range 12).map fun (i : Nat) =>
    let t := monthTotals entries year (i : Int)
    ⟨monthNames.getD i [], (i : Int), t.1, t.2⟩

/-! ## Exporters (`entriesImportExport.ts`, `entriesXlsxExport.ts`, and the
print-to-PDF exporter) -/

/-- A cell of an export row: JavaScript `string | number`. -/
inductive CellValue where
  | str (s : List Char) : CellValue
  | num (n : Int) : CellValue
deriving Repr, DecidableEq

/-- Decimal rendering of an integer (JavaScript `String(number)` for the
integral values used here). -/
def intToDec (n : Int) : List Char :=
  if n < 0 then '-' :: natToDigits (-n).toNat else natToDigits n.toNat

/-- JavaScript `String(cell)` for a cell value. -/
def cellToString : CellValue → List Char
  | .str s => s
  | .num n => intToDec n

/-- `formatTimestamp(timestamp)`: the nanosecond timestamp is divided by
1 000 000 to milliseconds (truncating) and then rendered; the
locale-dependent `toLocaleString` text is abstracted to the decimal
millisecond value. -/
def formatTimestamp (timestamp : Int) : List Char :=
  natToDigits (timestamp / 1000000).toNat

/-- `EXPORT_COLUMNS` from `entriesImportExport.ts`. -/
def EXPORT_COLUMNS : List (List Char) :=
  ["Manual Date".data, "DAYS".data, "Customer Name".data,
   "Mobile Number".data, "Amount (Rs.)".data, "Created At".data]

/-- `buildExportRow(entry)`, with "today" passed explicitly: the DAYS cell is
the empty string when `calculateDaysSince` returns "no value". -/
def buildExportRow (today : Int) (e : Entry) : List CellValue :=
  [.str e.manualDate,
   (match calculateDaysSince today e.manualDate with
    | some days => .num days
    | none => .str []),
   .str e.customerName, .str e.mobileNumber, .num e.amountRs,
   .str (formatTimestamp e.createdAt)]

/-- Join pieces with a one-character separator. -/
def joinChar (sep : Char) : List (List Char) → List Char
  | [] => []
  | [x] => x
  | x :: xs => x ++ sep :: joinChar sep xs

/-- Join pieces with a multi-character separator. -/
def joinWith (sep : List Char) : List (List Char) → List Char
  | [] => []
  | [x] => x
  | x :: xs => x ++ sep ++ joinWith sep xs

/-- The CSV text built by `exportToCSV` (header row then data rows, each
field escaped, comma-joined, newline-joined). -/
def csvContent (today : Int) (entries : List Entry) : List Char :=
  joinChar '\n'
    (joinChar ',' (EXPORT_COLUMNS.map escapeCSVField) ::
      entries.map fun e =>
        joinChar ','
          ((buildExportRow today e).map fun c => escapeCSVField (cellToString c)))

/-- `exportToCSV(entries)` from `entriesImportExport.ts`: throws
"No entries to export" on an empty list, otherwise produces the CSV text
(the download-link DOM side effects are outside the model). -/
def exportToCSV (today : Int) (entries : List Entry) :
    Except (List Char) (List Char) :=
  if entries.length = 0 then .error "No entries to export".data
  else .ok (csvContent today entries)

/-- `exportToXLSX(entries)` from `entriesXlsxExport.ts`: identical CSV text
prefixed with a byte-order mark. -/
def exportToXLSX (today : Int) (entries : List Entry) :
    Except (List Char) (List Char) :=
  if entries.length = 0 then .error "No entries to export".data
  else .ok ('﻿' :: csvContent today entries)

/-- `s.padEnd(w)` with spaces. -/
def padEndSpaces (s : List Char) (w : Nat) : List Char :=
  s ++ List.replicate (w - s.length) ' '

/-- `exportToText(entries)` from `entriesImportExport.ts`: fixed-width table
with title, `=` rule, blank line, padded header, `-+-` rule and padded data
rows. -/
def exportToText (today : Int) (entries : List Entry) :
    Except (List Char) (List Char) :=
  if entries.length = 0 then .error "No entries to export".data
  else
    let rows := entries.map fun e => (buildExportRow today e).map cellToString
    let colWidths := (List.range 6).map fun i =>
      max (EXPORT_COLUMNS.getD i []).length
        (rows.foldl (fun a row => max a (row.getD i []).length) 0)
    let headerRow := joinWith " | ".data ((List.range 6).map fun i =>
      padEndSpaces (EXPORT_COLUMNS.getD i []) (colWidths.getD i 0))
    let separator := joinWith "-+-".data
      (colWidths.map fun w => List.replicate w '-')
    let dataRows := rows.map fun row =>
      joinWith " | ".data ((List.range 6).map fun i =>
        padEndSpaces (row.getD i []) (colWidths.getD i 0))
    .ok (joinChar '\n'
      (["Data Entries".data, List.replicate headerRow.length '=', []] ++
        headerRow :: separator :: dataRows))

/-- `exportToPDF(entries)` (print-to-PDF exporter): throws "No entries to
export" on an empty list, otherwise emits the table data (header row plus
stringified data rows) that is embedded into the printable document; the
HTML scaffolding and the pop-up window are outside the model. -/
def exportToPDF (today : Int) (entries : List Entry) :
    Except (List Char) (List (List (List Char))) :=
  if entries.length = 0 then .error "No entries to export".data
  else
    .ok (EXPORT_COLUMNS ::
      entries.map fun e => (buildExportRow today e).map cellToString)

/-! ## Calendar round-trip lemmas -/

set_option maxHeartbeats 2000000 in
/-- Inverse of `doeFromYoeDoy`: within a 400-year era, the year of era is
recovered from the day of era.  A day-of-year of 365 only occurs when the
civil year following shifted year `a` (mod 400) is a leap year. -/
theorem yoeFromDoe_inv (a b : Int) (h0 : 0 ≤ a) (h1 : a ≤ 399)
    (h2 : 0 ≤ b) (h3 : b ≤ 365)
    (h4 : b ≤ 364 ∨ ((a+1) % 4 = 0 ∧ ((a+1) % 100 ≠ 0 ∨ (a+1) % 400 = 0))) :
    yoeFromDoe (doeFromYoeDoy a b) = a := by
  unfold yoeFromDoe doeFromYoeDoy
  obtain ⟨e, v, w, rfl, he0, he1, hv0, hv1, hw0, hw1⟩ :
      ∃ e v w, a = 100*e + 4*v + w ∧ 0 ≤ e ∧ e ≤ 3 ∧ 0 ≤ v ∧ v ≤ 24 ∧
        0 ≤ w ∧ w ≤ 3 :=
    ⟨a / 100, (a % 100) / 4, (a % 100) % 4, by omega, by omega, by omega,
     by omega, by omega, by omega, by omega⟩
  interval_cases e <;> interval_cases w <;> interval_cases v <;> omega

/-- Inverse of `doyFromMpDay`: the shifted month and the day of month are
recovered from the day of the March-based year, and that day of year lies in
`[0, 365]`. -/
theorem mpFromDoy_inv (mp d : Int) (h0 : 0 ≤ mp) (h1 : mp ≤ 11)
    (h2 : 1 ≤ d)
    (h3 : d ≤ (if mp = 1 ∨ mp = 3 ∨ mp = 6 ∨ mp = 8 then 30
               else if mp = 11 then 29 else 31)) :
    mpFromDoy (doyFromMpDay mp d) = mp ∧
    doyFromMpDay mp d - (153 * mp + 2) / 5 + 1 = d ∧
    0 ≤ doyFromMpDay mp d ∧ doyFromMpDay mp d ≤ 365 := by
  unfold mpFromDoy doyFromMpDay
  interval_cases mp <;> simp_all <;> omega

/-- `civilFromDays` splits its argument into era and day of era. -/
theorem civilFromDays_eq_eraDoe (era doe : Int) (h0 : 0 ≤ doe)
    (h1 : doe ≤ 146096) :
    civilFromDays (era * 146097 + doe - 719468) = civilFromEraDoe era doe := by
  unfold civilFromDays
  have e1 : (era * 146097 + doe - 719468 + 719468) / 146097 = era := by omega
  rw [e1]
  have e2 : era * 146097 + doe - 719468 + 719468 - era * 146097 = doe := by
    ring
  rw [e2]

/-- Full inversion of `civilFromEraDoe` on the image of a valid
(era, year-of-era, shifted month, day) quadruple. -/
theorem civilFromEraDoe_inv (era yoe mp d : Int)
    (hyoe0 : 0 ≤ yoe) (hyoe1 : yoe ≤ 399) (hmp0 : 0 ≤ mp) (hmp1 : mp ≤ 11)
    (hd1 : 1 ≤ d)
    (hdb : d ≤ (if mp = 1 ∨ mp = 3 ∨ mp = 6 ∨ mp = 8 then 30
                else if mp = 11 then 29 else 31))
    (hside : doyFromMpDay mp d ≤ 364 ∨
      ((yoe+1) % 4 = 0 ∧ ((yoe+1) % 100 ≠ 0 ∨ (yoe+1) % 400 = 0))) :
    civilFromEraDoe era (doeFromYoeDoy yoe (doyFromMpDay mp d)) =
      (yoe + era * 400 + (if 10 ≤ mp then 1 else 0),
       (if mp < 10 then mp + 3 else mp - 9), d) := by
  obtain ⟨hmp_eq, hd_eq, hdoy0, hdoy1⟩ := mpFromDoy_inv mp d hmp0 hmp1 hd1 hdb
  have hyoe_eq := yoeFromDoe_inv yoe (doyFromMpDay mp d) hyoe0 hyoe1 hdoy0 hdoy1 hside
  simp only [civilFromEraDoe]
  rw [hyoe_eq]
  have hdoy_eq : doeFromYoeDoy yoe (doyFromMpDay mp d) -
      (365 * yoe + yoe / 4 - yoe / 100) = doyFromMpDay mp d := by
    unfold doeFromYoeDoy; ring
  rw [hdoy_eq, hmp_eq, hd_eq]
  split_ifs <;> simp_all <;> omega

/-- The calendar round-trip: converting a valid civil date to its day number
and back is the identity. -/
theorem civil_roundtrip (y m d : Int) (hm1 : 1 ≤ m) (hm2 : m ≤ 12)
    (hd1 : 1 ≤ d) (hd4 : d ≤ daysInMonth y m) :
    civilFromDays (daysFromCivil y m d) = (y, m, d) := by
  have hz : daysFromCivil y m d =
      ((y - (if m ≤ 2 then 1 else 0)) / 400) * 146097 +
        doeFromYoeDoy
          (y - (if m ≤ 2 then 1 else 0) -
            ((y - (if m ≤ 2 then 1 else 0)) / 400) * 400)
          (doyFromMpDay (if 2 < m then m - 3 else m + 9) d) - 719468 := by
    simp only [daysFromCivil]
  have hyoe0 : 0 ≤ y - (if m ≤ 2 then 1 else 0) -
      ((y - (if m ≤ 2 then 1 else 0)) / 400) * 400 := by
    split_ifs <;> omega
  have hyoe1 : y - (if m ≤ 2 then 1 else 0) -
      ((y - (if m ≤ 2 then 1 else 0)) / 400) * 400 ≤ 399 := by
    split_ifs <;> omega
  have hmp0 : 0 ≤ (if 2 < m then m - 3 else m + 9) := by split_ifs <;> omega
  have hmp1 : (if 2 < m then m - 3 else m + 9) ≤ 11 := by split_ifs <;> omega
  have hdb : d ≤ (if (if 2 < m then m - 3 else m + 9) = 1 ∨
      (if 2 < m then m - 3 else m + 9) = 3 ∨
      (if 2 < m then m - 3 else m + 9) = 6 ∨
      (if 2 < m then m - 3 else m + 9) = 8 then 30
      else if (if 2 < m then m - 3 else m + 9) = 11 then 29 else 31) := by
    unfold daysInMonth isLeapYear at hd4
    simp only [decide_eq_true_eq] at hd4
    split_ifs at hd4 ⊢ <;> omega
  have hside : doyFromMpDay (if 2 < m then m - 3 else m + 9) d ≤ 364 ∨
      ((y - (if m ≤ 2 then 1 else 0) -
          ((y - (if m ≤ 2 then 1 else 0)) / 400) * 400 + 1) % 4 = 0 ∧
       ((y - (if m ≤ 2 then 1 else 0) -
          ((y - (if m ≤ 2 then 1 else 0)) / 400) * 400 + 1) % 100 ≠ 0 ∨
        (y - (if m ≤ 2 then 1 else 0) -
          ((y - (if m ≤ 2 then 1 else 0)) / 400) * 400 + 1) % 400 = 0)) := by
    unfold doyFromMpDay
    unfold daysInMonth isLeapYear at hd4
    simp only [decide_eq_true_eq] at hd4
    split_ifs at hd4 ⊢ <;> omega
  have hdoyb : 0 ≤ doyFromMpDay (if 2 < m then m - 3 else m + 9) d ∧
      doyFromMpDay (if 2 < m then m - 3 else m + 9) d ≤ 365 := by
    unfold doyFromMpDay
    split_ifs at hdb ⊢ <;> omega
  have h0doe : 0 ≤ doeFromYoeDoy
      (y - (if m ≤ 2 then 1 else 0) -
        ((y - (if m ≤ 2 then 1 else 0)) / 400) * 400)
      (doyFromMpDay (if 2 < m then m - 3 else m + 9) d) := by
    unfold doeFromYoeDoy
    omega
  have h1doe : doeFromYoeDoy
      (y - (if m ≤ 2 then 1 else 0) -
        ((y - (if m ≤ 2 then 1 else 0)) / 400) * 400)
      (doyFromMpDay (if 2 < m then m - 3 else m + 9) d) ≤ 146096 := by
    unfold doeFromYoeDoy
    omega
  rw [hz, civilFromDays_eq_eraDoe _ _ h0doe h1doe,
      civilFromEraDoe_inv _ _ _ _ hyoe0 hyoe1 hmp0 hmp1 hd1 hdb hside]
  simp only [Prod.mk.injEq]
  refine ⟨?_, ?_, trivial⟩ <;> split_ifs <;> omega

/-! ## Digit-string and formatting lemmas -/

theorem digitChar_spec (n : Nat) (h : n ≤ 9) :
    isAsciiDigit (digitChar n) = true ∧ digitVal (digitChar n) = n := by
  interval_cases n <;> exact ⟨by decide, by decide⟩

theorem digit_not_ws (c : Char) (h : isAsciiDigit c = true) :
    isJsWhitespace c = false := by
  simp only [isAsciiDigit, decide_eq_true_eq] at h
  simp only [isJsWhitespace, decide_eq_false_iff_not]
  omega

theorem natToDigitsAux_spec (fuel : Nat) : ∀ n, n < fuel →
    natToDigitsAux fuel n ≠ [] ∧
    (∀ c ∈ natToDigitsAux fuel n, isAsciiDigit c = true) ∧
    digitsToNat (natToDigitsAux fuel n) = n := by
  induction fuel with
  | zero => intro n h; exact absurd h (Nat.not_lt_zero n)
  | succ fuel ih =>
    intro n h
    unfold natToDigitsAux
    split_ifs with h10
    · have hd := digitChar_spec n (by omega)
      refine ⟨by simp, ?_, ?_⟩
      · intro c hc
        simp only [List.mem_singleton] at hc
        subst hc; exact hd.1
      · simp only [digitsToNat, List.foldl_cons, List.foldl_nil]
        omega
    · have hrec := ih (n / 10) (by omega)
      have hd := digitChar_spec (n % 10) (by omega)
      refine ⟨by simp [hrec.1], ?_, ?_⟩
      · intro c hc
        rcases List.mem_append.mp hc with h1 | h1
        · exact hrec.2.1 c h1
        · simp only [List.mem_singleton] at h1
          subst h1; exact hd.1
      · simp only [digitsToNat, List.foldl_append, List.foldl_cons,
          List.foldl_nil]
        have hpre : List.foldl (fun a c => a * 10 + digitVal c) 0
            (natToDigitsAux fuel (n / 10)) = n / 10 := hrec.2.2
        rw [hpre]
        omega

theorem natToDigits_spec (n : Nat) :
    natToDigits n ≠ [] ∧ (∀ c ∈ natToDigits n, isAsciiDigit c = true) ∧
    digitsToNat (natToDigits n) = n :=
  natToDigitsAux_spec (n + 1) n (by omega)

theorem padNat_digits (w n : Nat) :
    padNat w n ≠ [] ∧ ∀ c ∈ padNat w n, isAsciiDigit c = true := by
  unfold padNat
  obtain ⟨h1, h2, _⟩ := natToDigits_spec n
  refine ⟨by simp [h1], ?_⟩
  intro c hc
  rcases List.mem_append.mp hc with h | h
  · rw [List.eq_of_mem_replicate h]; decide
  · exact h2 c h

theorem digitsToNat_cons_zero (ds : List Char) :
    digitsToNat ('0' :: ds) = digitsToNat ds := by
  simp only [digitsToNat, List.foldl_cons]
  have h0 : (0 : Nat) * 10 + digitVal '0' = 0 := by decide
  rw [h0]

theorem digitsToNat_replicate_zero (k : Nat) (ds : List Char) :
    digitsToNat (List.replicate k '0' ++ ds) = digitsToNat ds := by
  induction k with
  | zero => rfl
  | succ k ih =>
    rw [List.replicate_succ, List.cons_append, digitsToNat_cons_zero, ih]

theorem dropWhile_ws_of_digits (l : List Char)
    (h : ∀ c ∈ l, isAsciiDigit c = true) :
    l.dropWhile isJsWhitespace = l := by
  cases l with
  | nil => rfl
  | cons c cs =>
    rw [List.dropWhile_cons, digit_not_ws c (h c (by simp))]
    simp

theorem takeWhile_digits_all (l : List Char)
    (h : ∀ c ∈ l, isAsciiDigit c = true) :
    l.takeWhile isAsciiDigit = l := by
  induction l with
  | nil => rfl
  | cons c cs ih =>
    rw [List.takeWhile_cons, h c (by simp)]
    simp only [if_true]
    rw [ih (fun x hx => h x (by simp [hx]))]

theorem signSplit_of_digits (l : List Char)
    (h : ∀ c ∈ l, isAsciiDigit c = true) : signSplit l = (false, l) := by
  cases l with
  | nil => rfl
  | cons c cs =>
    have hc : 48 ≤ c.toNat ∧ c.toNat ≤ 57 := by
      simpa [isAsciiDigit, decide_eq_true_eq] using h c (by simp)
    have hp : ¬ c = '+' := by
      intro he; subst he; exact absurd hc (by decide)
    have hm : ¬ c = '-' := by
      intro he; subst he; exact absurd hc (by decide)
    simp only [signSplit, if_neg hp, if_neg hm]

theorem jsParseInt_digits (l : List Char) (hne : l ≠ [])
    (h : ∀ c ∈ l, isAsciiDigit c = true) :
    jsParseInt l = some (digitsToNat l : Int) := by
  simp only [jsParseInt]
  rw [dropWhile_ws_of_digits l h, signSplit_of_digits l h]
  dsimp only
  rw [takeWhile_digits_all l h, if_neg hne]
  simp

theorem jsParseInt_padNat (w n : Nat) :
    jsParseInt (padNat w n) = some (n : Int) := by
  obtain ⟨hne, hdig⟩ := padNat_digits w n
  rw [jsParseInt_digits _ hne hdig]
  have : digitsToNat (padNat w n) = n := by
    unfold padNat
    rw [digitsToNat_replicate_zero]
    exact (natToDigits_spec n).2.2
  rw [this]

theorem jsSplit_of_not_mem (sep : Char) (l : List Char) (h : sep ∉ l) :
    jsSplit sep l = [l] := by
  induction l with
  | nil => rfl
  | cons c cs ih =>
    have h1 : ¬ c = sep := fun he => h (by simp [he])
    have h2 : sep ∉ cs := fun hm => h (by simp [hm])
    simp only [jsSplit]
    rw [if_neg h1, ih h2]

theorem jsSplit_append (sep : Char) (a b : List Char) (h : sep ∉ a) :
    jsSplit sep (a ++ sep :: b) = a :: jsSplit sep b := by
  induction a with
  | nil =>
    simp [jsSplit]
  | cons c a' ih =>
    have h1 : ¬ c = sep := fun he => h (by simp [he])
    have h2 : sep ∉ a' := fun hm => h (by simp [hm])
    simp only [List.cons_append, jsSplit, List.append_eq]
    rw [if_neg h1, ih h2]

theorem not_dash_padNat (w k : Nat) : '-' ∉ padNat w k := by
  intro hmem
  have := (padNat_digits w k).2 _ hmem
  exact absurd this (by decide)

theorem jsSplit_fmtYMD (y m d : Int) :
    jsSplit '-' (fmtYMD y m d) =
      [padNat 4 y.toNat, padNat 2 m.toNat, padNat 2 d.toNat] := by
  unfold fmtYMD
  rw [jsSplit_append _ _ _ (not_dash_padNat 4 y.toNat),
      jsSplit_append _ _ _ (not_dash_padNat 2 m.toNat),
      jsSplit_of_not_mem _ _ (not_dash_padNat 2 d.toNat)]

/-! ## `parseManualDate` on well-formed dates -/

theorem daysFromCivil_linear (y m d : Int) :
    daysFromCivil y m 1 + (d - 1) = daysFromCivil y m d := by
  unfold daysFromCivil doeFromYoeDoy doyFromMpDay
  ring

theorem jsMakeDay_eq_daysFromCivil (y m d : Int) (hy : ¬ (0 ≤ y ∧ y ≤ 99))
    (hm0 : 0 ≤ m) (hm1 : m ≤ 11) :
    jsMakeDay y m d = daysFromCivil y (m + 1) d := by
  simp only [jsMakeDay, if_neg hy]
  have h1 : y + m / 12 = y := by omega
  have h2 : m % 12 = m := by omega
  rw [h1, h2, daysFromCivil_linear]

theorem getters_daysFromCivil (y m d : Int) (hm1 : 1 ≤ m) (hm2 : m ≤ 12)
    (hd1 : 1 ≤ d) (hd2 : d ≤ daysInMonth y m) :
    getFullYear (daysFromCivil y m d) = y ∧
    getMonth (daysFromCivil y m d) = m - 1 ∧
    getDate (daysFromCivil y m d) = d := by
  unfold getFullYear getMonth getDate
  rw [civil_roundtrip y m d hm1 hm2 hd1 hd2]
  exact ⟨rfl, by ring, rfl⟩

theorem parseManualDate_fmt (y m d : Int) (hy : 100 ≤ y) (hy2 : y ≤ 9999)
    (hm1 : 1 ≤ m) (hm2 : m ≤ 12) (hd1 : 1 ≤ d) (hd2 : d ≤ daysInMonth y m) :
    parseManualDate (fmtYMD y m d) = some (daysFromCivil y m d) := by
  have hcasty : ((y.toNat : Int)) = y := Int.toNat_of_nonneg (by omega)
  have hcastm : ((m.toNat : Int)) = m := Int.toNat_of_nonneg (by omega)
  have hcastd : ((d.toNat : Int)) = d := Int.toNat_of_nonneg (by omega)
  have hget := getters_daysFromCivil y m d hm1 hm2 hd1 hd2
  have hmk : jsMakeDay y (m - 1) d = daysFromCivil y m d := by
    have := jsMakeDay_eq_daysFromCivil y (m - 1) d (by omega) (by omega)
      (by omega)
    rw [this]
    norm_num
  simp only [parseManualDate, jsSplit_fmtYMD, jsParseInt_padNat, hcasty,
    hcastm, hcastd]
  rw [if_pos]
  · rw [hmk]
  · rw [hmk]
    exact ⟨hget.1, hget.2.1, hget.2.2⟩

/-! ## Claim C2 -/

/-- C2 counterexample: the claim says `parseDate` accepts *only* strict
`YYYY-MM-DD` strings (everything else yields "no date"), but the code's
`parseInt`-based parsing also accepts the unpadded string `"2021-1-5"`
(8 characters, so not of the 10-character `YYYY-MM-DD` shape) and returns
the date 2021-01-05 for it. -/
theorem parseManualDate_accepts_nonstrict :
    parseManualDate "2021-1-5".data = some (daysFromCivil 2021 1 5) ∧
    "2021-1-5".data.length ≠ 10 :=
  ⟨by decide, by decide⟩

/-- C2 (amended): for every valid calendar date with year in 100..9999,
parsing its zero-padded `YYYY-MM-DD` rendering succeeds and reformatting the
parsed components yields the input string back; and `"2021-02-30"` parses to
"no date" (no rollover into March).  (`parseManualDate` also accepts some
non-strict spellings, e.g. unpadded parts — see the counterexample — and
rejects years 0..99 because of JavaScript's two-digit-year remapping.) -/
theorem parseManualDate_strict_roundtrip (y m d : Int)
    (hy : 100 ≤ y) (hy2 : y ≤ 9999) (hm1 : 1 ≤ m) (hm2 : m ≤ 12)
    (hd1 : 1 ≤ d) (hd2 : d ≤ daysInMonth y m) :
    (∃ t, parseManualDate (fmtYMD y m d) = some t ∧
        fmtYMD (getFullYear t) (getMonth t + 1) (getDate t) = fmtYMD y m d) ∧
    parseManualDate "2021-02-30".data = none := by
  refine ⟨⟨daysFromCivil y m d,
    parseManualDate_fmt y m d hy hy2 hm1 hm2 hd1 hd2, ?_⟩, by decide⟩
  obtain ⟨h1, h2, h3⟩ := getters_daysFromCivil y m d hm1 hm2 hd1 hd2
  rw [h1, h2, h3]
  have hm' : m - 1 + 1 = m := by ring
  rw [hm']

/-- Witness for C2's amended theorem at the concrete date 2024-02-29. -/
theorem parseManualDate_strict_roundtrip_witness :
    (∃ t, parseManualDate (fmtYMD 2024 2 29) = some t ∧
        fmtYMD (getFullYear t) (getMonth t + 1) (getDate t) =
          fmtYMD 2024 2 29) ∧
    parseManualDate "2021-02-30".data = none :=
  parseManualDate_strict_roundtrip 2024 2 29 (by decide) (by decide)
    (by decide) (by decide) (by decide) (by decide)

/-! ## Claim C9 -/

/-- C9: with the reference instant "today at local midnight" fixed (as the
day number `today`), `calculateDaysSince` returns "no value" on unparseable
input, and otherwise the floor of the midnight-difference divided by
86 400 000 ms, which equals the calendar-day difference: 0 for today's date,
1 for yesterday, −1 for tomorrow, positive for past dates and negative for
future ones. -/
theorem calculateDaysSince_spec (today : Int) (s : List Char) (y m d : Int)
    (hy : 100 ≤ y) (hy2 : y ≤ 9999) (hm1 : 1 ≤ m) (hm2 : m ≤ 12)
    (hd1 : 1 ≤ d) (hd2 : d ≤ daysInMonth y m) :
    (parseManualDate s = none → calculateDaysSince today s = none) ∧
    (∀ t, parseManualDate s = some t →
      calculateDaysSince today s =
        some ((today * 86400000 - t * 86400000) / 86400000) ∧
      (today * 86400000 - t * 86400000) / 86400000 = today - t) ∧
    (daysFromCivil y m d = today →
      calculateDaysSince today (fmtYMD y m d) = some 0) ∧
    (daysFromCivil y m d = today - 1 →
      calculateDaysSince today (fmtYMD y m d) = some 1) ∧
    (daysFromCivil y m d = today + 1 →
      calculateDaysSince today (fmtYMD y m d) = some (-1)) := by
  have hfmt := parseManualDate_fmt y m d hy hy2 hm1 hm2 hd1 hd2
  have hval : ∀ t : Int,
      (today * 86400000 - t * 86400000) / 86400000 = today - t := by
    intro t
    have h : today * 86400000 - t * 86400000 = (today - t) * 86400000 := by
      ring
    rw [h, Int.mul_ediv_cancel _ (by norm_num)]
  refine ⟨?_, ?_, ?_, ?_, ?_⟩
  · intro h
    simp only [calculateDaysSince, h]
  · intro t ht
    simp only [calculateDaysSince, ht]
    exact ⟨trivial, hval t⟩
  · intro h
    simp only [calculateDaysSince, hfmt, h, hval today]
    norm_num
  · intro h
    simp only [calculateDaysSince, hfmt, h, hval (today - 1)]
    norm_num
  · intro h
    simp only [calculateDaysSince, hfmt, h, hval (today + 1)]
    norm_num

/-- Witness for C9 at today = 2026-10-11 with the date 2026-10-10
("yesterday"). -/
theorem calculateDaysSince_spec_witness :
    (parseManualDate "x".data = none →
      calculateDaysSince (daysFromCivil 2026 10 11) "x".data = none) ∧
    (∀ t, parseManualDate "x".data = some t →
      calculateDaysSince (daysFromCivil 2026 10 11) "x".data =
        some ((daysFromCivil 2026 10 11 * 86400000 - t * 86400000) /
          86400000) ∧
      (daysFromCivil 2026 10 11 * 86400000 - t * 86400000) / 86400000 =
        daysFromCivil 2026 10 11 - t) ∧
    (daysFromCivil 2026 10 10 = daysFromCivil 2026 10 11 →
      calculateDaysSince (daysFromCivil 2026 10 11) (fmtYMD 2026 10 10) =
        some 0) ∧
    (daysFromCivil 2026 10 10 = daysFromCivil 2026 10 11 - 1 →
      calculateDaysSince (daysFromCivil 2026 10 11) (fmtYMD 2026 10 10) =
        some 1) ∧
    (daysFromCivil 2026 10 10 = daysFromCivil 2026 10 11 + 1 →
      calculateDaysSince (daysFromCivil 2026 10 11) (fmtYMD 2026 10 10) =
        some (-1)) :=
  calculateDaysSince_spec (daysFromCivil 2026 10 11) "x".data 2026 10 10
    (by decide) (by decide) (by decide) (by decide) (by decide) (by decide)

/-! ## Claim C8 -/

/-- C8: `validateMobileNumber` checks, in order: emptiness (after trimming)
→ "Mobile Number is required"; any non-digit character → "Mobile Number must
contain only digits"; length outside [10, 15] → "Mobile Number must be
between 10 and 15 digits"; otherwise it passes.  (It never throws: it is a
total function of the model.) -/
theorem validateMobileNumber_spec (v : List Char) :
    (jsTrim v = [] →
      validateMobileNumber v =
        ⟨false, some "Mobile Number is required".data⟩) ∧
    (jsTrim v ≠ [] → (∃ c ∈ v, isAsciiDigit c = false) →
      validateMobileNumber v =
        ⟨false, some "Mobile Number must contain only digits".data⟩) ∧
    (jsTrim v ≠ [] → (∀ c ∈ v, isAsciiDigit c = true) →
      (v.length < 10 ∨ 15 < v.length) →
      validateMobileNumber v =
        ⟨false, some "Mobile Number must be between 10 and 15 digits".data⟩) ∧
    (jsTrim v ≠ [] → (∀ c ∈ v, isAsciiDigit c = true) →
      10 ≤ v.length → v.length ≤ 15 →
      validateMobileNumber v = ⟨true, none⟩) := by
  have hv_of : jsTrim v ≠ [] → v ≠ [] := by
    intro h he; subst he; exact h rfl
  refine ⟨?_, ?_, ?_, ?_⟩
  · intro h
    unfold validateMobileNumber
    rw [if_pos (Or.inr h)]
  · intro h hex
    obtain ⟨c, hc, hcf⟩ := hex
    have hv := hv_of h
    unfold validateMobileNumber
    rw [if_neg (by push_neg; exact ⟨hv, h⟩),
        if_pos (by
          rintro ⟨-, hall⟩
          rw [List.all_eq_true] at hall
          have hct := hall c hc
          rw [hcf] at hct
          exact Bool.false_ne_true hct)]
  · intro h hall hlen
    have hv := hv_of h
    unfold validateMobileNumber
    rw [if_neg (by push_neg; exact ⟨hv, h⟩),
        if_neg (by rw [not_not]; exact ⟨hv, List.all_eq_true.mpr hall⟩),
        if_pos hlen]
  · intro h hall h10 h15
    have hv := hv_of h
    unfold validateMobileNumber
    rw [if_neg (by push_neg; exact ⟨hv, h⟩),
        if_neg (by rw [not_not]; exact ⟨hv, List.all_eq_true.mpr hall⟩),
        if_neg (by omega)]

/-- Witness for C8 at the all-digit but too-short value "123". -/
theorem validateMobileNumber_spec_witness :
    validateMobileNumber "123".data =
      ⟨false, some "Mobile Number must be between 10 and 15 digits".data⟩ :=
  (validateMobileNumber_spec "123".data).2.2.1 (by decide) (by decide)
    (by decide)

/-! ## Claim C3 -/

/-- C3: `validateAmount` checks, in order: emptiness (after trimming) →
"Amount is required"; `parseFloat` yielding NaN → "Amount must be a valid
number"; parsed value ≤ 0 → "Amount must be greater than 0"; otherwise it
passes.  The first failing check's message is returned. -/
theorem validateAmount_spec (v : List Char) :
    (jsTrim v = [] →
      validateAmount v = ⟨false, some "Amount is required".data⟩) ∧
    (jsTrim v ≠ [] → (jsParseFloat v).isNaN = true →
      validateAmount v =
        ⟨false, some "Amount must be a valid number".data⟩) ∧
    (jsTrim v ≠ [] → (jsParseFloat v).isNaN = false →
      (jsParseFloat v).le0 = true →
      validateAmount v =
        ⟨false, some "Amount must be greater than 0".data⟩) ∧
    (jsTrim v ≠ [] → (jsParseFloat v).isNaN = false →
      (jsParseFloat v).le0 = false →
      validateAmount v = ⟨true, none⟩) := by
  have hv_of : jsTrim v ≠ [] → v ≠ [] := by
    intro h he; subst he; exact h rfl
  refine ⟨?_, ?_, ?_, ?_⟩
  · intro h
    unfold validateAmount
    rw [if_pos (Or.inr h)]
  · intro h hnan
    unfold validateAmount
    rw [if_neg (by push_neg; exact ⟨hv_of h, h⟩), if_pos hnan]
  · intro h hnan hle
    unfold validateAmount
    rw [if_neg (by push_neg; exact ⟨hv_of h, h⟩),
        if_neg (by rw [hnan]; exact Bool.false_ne_true), if_pos hle]
  · intro h hnan hle
    unfold validateAmount
    rw [if_neg (by push_neg; exact ⟨hv_of h, h⟩),
        if_neg (by rw [hnan]; exact Bool.false_ne_true),
        if_neg (by rw [hle]; exact Bool.false_ne_true)]

/-- Witness for C3 at the negative amount "-5". -/
theorem validateAmount_spec_witness :
    validateAmount "-5".data =
      ⟨false, some "Amount must be greater than 0".data⟩ :=
  (validateAmount_spec "-5".data).2.2.1 (by decide) (by decide) (by decide)

/-! ## Claim C5 -/

/-- C5: the field `a,"b"\nc` (comma, quotes, embedded newline) serializes
through `escapeCSVField` to `"a,""b""\nc"` and parsing that single field back
with the quote-aware splitter `parseCSVLine` returns exactly the original
string. -/
theorem csv_escape_roundtrip :
    escapeCSVField "a,\"b\"\nc".data = "\"a,\"\"b\"\"\nc\"".data ∧
    parseCSVLine (escapeCSVField "a,\"b\"\nc".data) = ["a,\"b\"\nc".data] :=
  ⟨by decide, by decide⟩

/-! ## Claim C10 -/

theorem parseCSV_states_nonempty :
    ∀ n : Nat, ∀ l cur : List Char, l.length ≤ n →
      1 ≤ (parseCSVOut cur l).length ∧ 1 ≤ (parseCSVIn cur l).length := by
  intro n
  induction n with
  | zero =>
    intro l cur h
    have hl : l = [] := by
      cases l with
      | nil => rfl
      | cons c cs => simp at h
    subst hl
    exact ⟨by simp [parseCSVOut], by simp [parseCSVIn]⟩
  | succ n ih =>
    intro l cur h
    cases l with
    | nil => exact ⟨by simp [parseCSVOut], by simp [parseCSVIn]⟩
    | cons c rest =>
      simp only [List.length_cons] at h
      by_cases hq : c = '"'
      · subst hq
        cases rest with
        | nil =>
          exact ⟨by simp [parseCSVOut, parseCSVIn],
                 by simp [parseCSVIn, parseCSVOut]⟩
        | cons c2 rest2 =>
          simp only [List.length_cons] at h
          by_cases hq2 : c2 = '"'
          · subst hq2
            refine ⟨?_, ?_⟩
            · simp only [parseCSVOut]
              exact (ih ('"' :: rest2) cur (by simp; omega)).2
            · simp only [parseCSVIn]
              exact (ih rest2 (cur ++ ['"']) (by omega)).2
          · refine ⟨?_, ?_⟩
            · simp only [parseCSVOut]
              exact (ih (c2 :: rest2) cur (by simp; omega)).2
            · rw [parseCSVIn.eq_3 cur (c2 :: rest2)
                (fun r2 hr => hq2 (by injection hr))]
              exact (ih (c2 :: rest2) cur (by simp; omega)).1
      · by_cases hcm : c = ','
        · subst hcm
          refine ⟨?_, ?_⟩
          · simp [parseCSVOut]
          · rw [parseCSVIn.eq_4 cur ',' rest
                (fun _ hc _ => absurd hc (by decide))
                (fun hc => absurd hc (by decide))]
            exact (ih rest (cur ++ [',']) (by omega)).2
        · refine ⟨?_, ?_⟩
          · rw [parseCSVOut.eq_4 cur c rest (fun hc => hq hc)
                (fun hc => hcm hc)]
            exact (ih rest (cur ++ [c]) (by omega)).1
          · rw [parseCSVIn.eq_4 cur c rest (fun _ hc _ => hq hc)
                (fun hc => hq hc)]
            exact (ih rest (cur ++ [c]) (by omega)).2

/-- C10: on every input line — balanced or unbalanced quotes alike — the
quote-aware splitter `parseCSVLine` is a total function of the model and
returns at least one field; hence the importer's per-row catch branch (which
would convert a `parseCSVLine` exception into a row error) is unreachable. -/
theorem parseCSVLine_total_nonempty (line : List Char) :
    1 ≤ (parseCSVLine line).length :=
  (parseCSV_states_nonempty line.length line [] le_rfl).1

/-! ## Claim C7 -/

/-- C7: every exporter (CSV, "XLSX", fixed-width text, printable PDF) fails
with the "No entries to export" error when given zero entries, before
producing any output. -/
theorem exporters_reject_empty (today : Int) :
    exportToCSV today [] = .error "No entries to export".data ∧
    exportToXLSX today [] = .error "No entries to export".data ∧
    exportToText today [] = .error "No entries to export".data ∧
    exportToPDF today [] = .error "No entries to export".data :=
  ⟨rfl, rfl, rfl, rfl⟩

/-! ## Claim C6 -/

theorem monthTotals_spec (year m : Int) (entries : List Entry) :
    monthTotals entries year m =
      (((entries.filter (entryInMonth year m)).map Entry.amountRs).sum,
       ((entries.filter (entryInMonth year m)).length : Int)) := by
  unfold monthTotals
  suffices h : ∀ acc : Int × Int,
      entries.foldl
        (fun acc e =>
          if entryInMonth year m e then (acc.1 + e.amountRs, acc.2 + 1)
          else acc) acc =
      (acc.1 + ((entries.filter (entryInMonth year m)).map Entry.amountRs).sum,
       acc.2 + ((entries.filter (entryInMonth year m)).length : Int)) by
    rw [h (0, 0)]
    norm_num
  induction entries with
  | nil => intro acc; simp
  | cons e es ih =>
    intro acc
    simp only [List.foldl_cons, List.filter_cons]
    by_cases h : entryInMonth year m e = true
    · rw [if_pos h, ih, h]
      simp
      constructor <;> ring
    · rw [if_neg h, ih]
      simp [h]

/-- C6: `aggregateByMonth` always returns exactly 12 buckets in Jan..Dec
order, and bucket `i` totals exactly the entries whose date parses with year
equal to the requested year and month `i`; entries with unparseable dates or
a different year are skipped (they fail `entryInMonth`). -/
theorem aggregateByMonth_spec (entries : List Entry) (year : Int) :
    (aggregateByMonth entries year).length = 12 ∧
    ∀ i : Nat, i < 12 →
      (aggregateByMonth entries year).get? i =
        some ⟨monthNames.getD i [], (i : Int),
          ((entries.filter (entryInMonth year (i : Int))).map
            Entry.amountRs).sum,
          ((entries.filter (entryInMonth year (i : Int))).length : Int)⟩ := by
  constructor
  · simp [aggregateByMonth]
  · intro i hi
    simp only [aggregateByMonth]
    rw [List.get?_map, List.get?_range hi]
    simp [monthTotals_spec]

/-- Witness for C6: the empty entry list still yields 12 buckets, with the
January bucket zero-valued. -/
theorem aggregateByMonth_spec_witness :
    (aggregateByMonth [] 2024).length = 12 ∧
    (aggregateByMonth [] 2024).get? 0 = some ⟨"Jan".data, 0, 0, 0⟩ := by
  refine ⟨(aggregateByMonth_spec [] 2024).1, ?_⟩
  have h := (aggregateByMonth_spec [] 2024).2 0 (by norm_num)
  simpa using h

theorem parseXLSXFile_eq_cons (text headerLine : List Char)
    (dataLines : List (List Char)) (ht : text ≠ [])
    (hnl : nonblankLines text = headerLine :: dataLines) :
    parseXLSXFile text =
      (if ¬ (((parseCSVLine headerLine).map normalizeColumnName).any
          (fun f => f.isSome)) then
        Except.error "No recognized columns found in the file".data
      else if (importRows ((parseCSVLine headerLine).map normalizeColumnName)
            1 dataLines).1 = [] ∧
          (importRows ((parseCSVLine headerLine).map normalizeColumnName)
            1 dataLines).2 = [] then
        Except.error "No data rows found in the file".data
      else Except.ok
        ⟨(importRows ((parseCSVLine headerLine).map normalizeColumnName)
            1 dataLines).1,
         (importRows ((parseCSVLine headerLine).map normalizeColumnName)
            1 dataLines).2⟩) := by
  simp only [parseXLSXFile, if_neg ht, hnl]

/-! ## Claim C1 -/

/-- C1: `parseXLSXFile` rejects only for structural problems — empty file
text, no non-blank lines, zero recognized header columns, or a data-row loop
producing zero valid rows and zero errors — and whenever the data-row loop
produces no valid rows but a non-empty error list (all rows failed
validation), the importer still resolves successfully with empty `validRows`
and exactly those errors. -/
theorem parseXLSXFile_structural (text : List Char) :
    (∀ e, parseXLSXFile text = .error e →
      text = [] ∨ nonblankLines text = [] ∨
      (∃ headerLine dataLines,
        nonblankLines text = headerLine :: dataLines ∧
        (((parseCSVLine headerLine).map normalizeColumnName).any
            (fun f => f.isSome) = false ∨
         importRows ((parseCSVLine headerLine).map normalizeColumnName) 1
            dataLines = ([], [])))) ∧
    (∀ headerLine dataLines errs,
      nonblankLines text = headerLine :: dataLines →
      ((parseCSVLine headerLine).map normalizeColumnName).any
          (fun f => f.isSome) = true →
      importRows ((parseCSVLine headerLine).map normalizeColumnName) 1
          dataLines = ([], errs) →
      errs ≠ [] →
      parseXLSXFile text = .ok ⟨[], errs⟩) := by
  constructor
  · intro e he
    by_cases ht : text = []
    · exact Or.inl ht
    right
    cases hnl : nonblankLines text with
    | nil => exact Or.inl rfl
    | cons headerLine dataLines =>
      rw [parseXLSXFile_eq_cons text headerLine dataLines ht hnl] at he
      right
      refine ⟨headerLine, dataLines, rfl, ?_⟩
      by_cases hany : ((parseCSVLine headerLine).map normalizeColumnName).any
          (fun f => f.isSome) = true
      · rw [if_neg (fun hn => hn hany)] at he
        by_cases hres : importRows
            ((parseCSVLine headerLine).map normalizeColumnName) 1 dataLines =
            ([], [])
        · exact Or.inr hres
        · exfalso
          rw [if_neg (by
            intro hc
            exact hres (Prod.ext hc.1 hc.2))] at he
          exact Except.noConfusion he
      · exact Or.inl (by rwa [Bool.not_eq_true] at hany)
  · intro headerLine dataLines errs hnl hany hrows hne
    have ht : text ≠ [] := by
      intro h
      rw [h] at hnl
      rw [show nonblankLines [] = [] from rfl] at hnl
      exact List.noConfusion hnl
    rw [parseXLSXFile_eq_cons text headerLine dataLines ht hnl,
        if_neg (fun hn => hn hany), hrows]
    rw [if_neg (by intro hc; exact hne hc.2)]

/-- Witness for C1: a file whose single data row fails validation resolves
successfully with no valid rows and one error. -/
theorem parseXLSXFile_structural_witness :
    parseXLSXFile "Date,Name,Mobile,Amount\n,Jane,123,500".data =
      .ok ⟨[], [⟨2, "Row 2: Manual Date is required".data⟩]⟩ :=
  (parseXLSXFile_structural
      "Date,Name,Mobile,Amount\n,Jane,123,500".data).2
    "Date,Name,Mobile,Amount".data [",Jane,123,500".data]
    [⟨2, "Row 2: Manual Date is required".data⟩]
    (by decide) (by decide) (by decide) (by decide)

/-! ## Claim C4 -/

/-- C4 counterexample: in the file
`"Date,Name,Mobile,Amount\n\n,Jane,123,500"` the failing data row is
physical line 3 of the source file (physical line 2 is blank), yet the
importer reports row 2: blank lines are dropped before numbering, so the
reported number does not count the file's blank lines as the claim says. -/
theorem importer_row_number_blank_mismatch :
    parseXLSXFile "Date,Name,Mobile,Amount\n\n,Jane,123,500".data =
      .ok ⟨[], [⟨2, "Row 2: Manual Date is required".data⟩]⟩ ∧
    (splitLinesCRLF "Date,Name,Mobile,Amount\n\n,Jane,123,500".data).get? 1 =
      some [] ∧
    (splitLinesCRLF "Date,Name,Mobile,Amount\n\n,Jane,123,500".data).get? 2 =
      some ",Jane,123,500".data :=
  ⟨by decide, by decide, by decide⟩

theorem processLine_row (fm : List (Option Field)) (n : Nat) (l : List Char)
    (e : ImportError) (h : processLine fm n l = some (.inr e)) : e.row = n := by
  simp only [processLine] at h
  split_ifs at h
  all_goals split at h
  all_goals try (injection h with hinj; exact Sum.noConfusion hinj)
  all_goals injection h with hinj
  all_goals injection hinj with hinj2
  all_goals rw [← hinj2]

theorem importRows_errors (fm : List (Option Field)) :
    ∀ (ls : List (List Char)) (i : Nat), ∀ e ∈ (importRows fm i ls).2,
      ∃ j l, ls.get? j = some l ∧ e.row = i + 1 + j ∧
        processLine fm (i + 1 + j) l = some (.inr e) := by
  intro ls
  induction ls with
  | nil => intro i e he; simp [importRows] at he
  | cons l ls ih =>
    intro i e he
    simp only [importRows] at he
    cases hp : processLine fm (i + 1) l with
    | none =>
      rw [hp] at he
      obtain ⟨j, l', h1, h2, h3⟩ := ih (i + 1) e he
      refine ⟨j + 1, l', by simpa using h1, by omega, ?_⟩
      have harith : i + 1 + (j + 1) = i + 1 + 1 + j := by omega
      rw [harith]
      exact h3
    | some v =>
      cases v with
      | inl r =>
        rw [hp] at he
        obtain ⟨j, l', h1, h2, h3⟩ := ih (i + 1) e he
        refine ⟨j + 1, l', by simpa using h1, by omega, ?_⟩
        have harith : i + 1 + (j + 1) = i + 1 + 1 + j := by omega
        rw [harith]
        exact h3
      | inr e2 =>
        rw [hp] at he
        rcases List.mem_cons.mp he with heq | he2
        · subst heq
          exact ⟨0, l, rfl, by
            have := processLine_row fm (i + 1) l e hp
            omega, by simpa using hp⟩
        · obtain ⟨j, l', h1, h2, h3⟩ := ih (i + 1) e he2
          refine ⟨j + 1, l', by simpa using h1, by omega, ?_⟩
          have harith : i + 1 + (j + 1) = i + 1 + 1 + j := by omega
          rw [harith]
          exact h3

/-- C4 (amended): every error recorded by the importer carries a 1-based row
number counting the header as row 1 *within the file's non-blank lines* (so
the first data row is row 2): the error at row `j + 2` comes from the `j`-th
non-blank data line.  Blank lines are filtered out before numbering, so in
files containing blank lines this number can differ from the physical line
number a human would read (see the counterexample). -/
theorem importer_error_rows (text : List Char) (r : ImportResult)
    (hok : parseXLSXFile text = .ok r) :
    ∀ e ∈ r.errors, ∃ headerLine dataLines j l,
      nonblankLines text = headerLine :: dataLines ∧
      dataLines.get? j = some l ∧ e.row = j + 2 ∧
      processLine ((parseCSVLine headerLine).map normalizeColumnName)
        (j + 2) l = some (.inr e) := by
  intro e he
  by_cases ht : text = []
  · rw [ht] at hok
    rw [show parseXLSXFile ([] : List Char) =
        Except.error "Failed to read file".data from rfl] at hok
    exact Except.noConfusion hok
  cases hnl : nonblankLines text with
  | nil =>
    have : parseXLSXFile text = Except.error "File is empty".data := by
      simp only [parseXLSXFile, if_neg ht, hnl]
    rw [this] at hok
    exact Except.noConfusion hok
  | cons headerLine dataLines =>
    rw [parseXLSXFile_eq_cons text headerLine dataLines ht hnl] at hok
    by_cases hany : ((parseCSVLine headerLine).map normalizeColumnName).any
        (fun f => f.isSome) = true
    · rw [if_neg (fun hn => hn hany)] at hok
      split_ifs at hok
      injection hok with hr
      have herr : r.errors =
          (importRows ((parseCSVLine headerLine).map normalizeColumnName) 1
            dataLines).2 := by
        rw [← hr]
      rw [herr] at he
      obtain ⟨j, l, h1, h2, h3⟩ := importRows_errors
        ((parseCSVLine headerLine).map normalizeColumnName) dataLines 1 e he
      refine ⟨headerLine, dataLines, j, l, rfl, h1, by omega, ?_⟩
      have harith : j + 2 = 1 + 1 + j := by omega
      rw [harith]
      exact h3
    · rw [if_pos hany] at hok
      exact Except.noConfusion hok

/-- Witness for C4's amended theorem: the single failing data row of a file
without blank lines is reported as row 2, the position of that line among
the non-blank lines (header = row 1). -/
theorem importer_error_rows_witness :
    ∃ headerLine dataLines j l,
      nonblankLines "Date,Name,Mobile,Amount\n,Jane,123,500".data =
        headerLine :: dataLines ∧
      dataLines.get? j = some l ∧
      (⟨2, "Row 2: Manual Date is required".data⟩ : ImportError).row = j + 2 ∧
      processLine ((parseCSVLine headerLine).map normalizeColumnName)
        (j + 2) l =
        some (.inr ⟨2, "Row 2: Manual Date is required".data⟩) :=
  importer_error_rows "Date,Name,Mobile,Amount\n,Jane,123,500".data
    ⟨[], [⟨2, "Row 2: Manual Date is required".data⟩]⟩ (by decide)
    ⟨2, "Row 2: Manual Date is required".data⟩ (by decide)

end DataEntry
